import Mathlib

/-!
# HaloPayment authorization core: a shallow embedding

The repository ships the HaloPayment contract interface, its deploy
script, its exhaustive Foundry test suite and its documented message
format, but not HaloPayment.sol itself. The definitions below therefore
model the contract from the specification (each such definition says so in
its doc comment), constrained everywhere by the artifacts that ARE in the
repository: the error selectors, event shapes and call signatures the test
suite exercises, and the exact digest composition documented as the
message format.

Modelling conventions:

* Addresses are natural numbers; 0 is the zero address.
* Amounts and nonces are natural numbers standing for uint256 values; the
  only 256-bit artifact the logic depends on is the infinite-allowance
  sentinel, kept explicitly as MAX_UINT256.
* keccak256 over the documented packed encoding is modelled as a free
  constructor of an inductive type of digests, i.e. as an ideal
  collision-free hash: two digests are equal exactly when their preimages
  are. The personal-message wrapping is a second constructor.
* An ECDSA signature is modelled symbolically as the pair of the address
  whose key produced it and the digest it was produced over; recovery
  returns that address exactly on the signed digest and the zero address
  on every other digest (an ideal signature scheme: a signature is
  meaningless outside the digest it signs).
* Every external call is one atomic transition: it returns either a new
  state together with its emitted events, or an error, in which case no
  mutation survives (the model of an EVM revert).
-/

/-- An account identity; 0 is the zero address. -/
abbrev Address := Nat

/-- Deployment context of one contract instance on one chain: the chain
identifier and the address the instance lives at. -/
structure Config where
  chainId : Nat
  thisAddr : Address
deriving DecidableEq

/-- Digests, with keccak256 over the documented packed encoding modelled
as a free constructor (ideal collision-free hash), and the standard
Ethereum signed-message wrapping as a second constructor. -/
inductive Hash where
  | keccakPacked (tag : String) (payer merchant : Address)
      (amount nonce chainId : Nat) (contractAddr : Address)
  | ethSigned (inner : Hash)
deriving DecidableEq

/-- The constant domain tag of the documented message format. -/
def haloTag : String := "HaloPayment:"

/-- Modelled from the spec: MessageHashBuilder, the raw digest of
getPaymentMessageHash in the missing HaloPayment.sol, composed exactly as
the documented message format: keccak256 of the packed domain tag, payer,
merchant, amount, nonce, chain id and contract address. -/
def getPaymentMessageHash (cfg : Config) (payer merchant : Address)
    (amount nonce : Nat) : Hash :=
  Hash.keccakPacked haloTag payer merchant amount nonce cfg.chainId cfg.thisAddr

/-- Modelled from the spec: the signable variant of the digest, the
standard Ethereum signed-message wrapping of the raw payment digest
(getEthSignedMessageHash in the missing HaloPayment.sol). -/
def getEthSignedMessageHash (cfg : Config) (payer merchant : Address)
    (amount nonce : Nat) : Hash :=
  Hash.ethSigned (getPaymentMessageHash cfg payer merchant amount nonce)

/-- A symbolic ECDSA signature: the address whose key produced it and the
digest it was produced over. -/
structure Signature where
  signer : Address
  signedHash : Hash
deriving DecidableEq

/-- Modelled from the spec: SignatureVerifier. Ideal recovery: yields the
signer on the digest the signature was made over and the zero address on
any other digest. -/
def recoverSigner (digest : Hash) (sig : Signature) : Address :=
  if sig.signedHash = digest then sig.signer else 0

/-- Modelled from the spec: the persistent storage of the missing
HaloPayment.sol — the two directions of the registration relation and the
per-payer consumed-nonce set. -/
structure HaloPaymentState where
  authorizedHaloAddresses : Address → Address
  haloToPayer : Address → Address
  usedNonces : Address → Nat → Bool

/-- The balance and allowance state of the token collaborator. -/
structure TokenState where
  balanceOf : Address → Nat
  allowance : Address → Address → Nat

/-- The full state an external call acts on: the contract storage and the
token collaborator. -/
structure SysState where
  pay : HaloPaymentState
  token : TokenState

/-- Pointwise update of a one-argument map. -/
def fupd (f : Address → Nat) (a : Address) (v : Nat) : Address → Nat :=
  fun x => if x = a then v else f x

/-- The uint256 infinite-allowance sentinel. -/
def MAX_UINT256 : Nat := 2 ^ 256 - 1

/-- The error taxonomy of the contract plus the two errors the token
collaborator raises itself (propagated, never translated). -/
inductive HaloError where
  | ZeroAddress
  | InvalidAmount
  | HaloAddressNotAuthorized
  | HaloAddressAlreadyRegistered
  | InvalidSignature
  | NonceAlreadyUsed
  | InsufficientAllowance
  | TokenInsufficientAllowance
  | TokenInsufficientBalance
deriving DecidableEq

/-- The events of the contract, as declared in the repository docs and
asserted by the test suite. -/
inductive HaloEvent where
  | HaloAddressRegistered (user halo : Address)
  | HaloAddressRevoked (user halo : Address)
  | PaymentExecuted (payer merchant : Address) (amount nonce : Nat)
      (halo : Address)
deriving DecidableEq

/-- The balance map after moving an amount from source to recipient:
subtract at the source, then add at the recipient, in storage order. -/
def xferBal (b : Address → Nat) (src dst : Address) (amount : Nat) :
    Address → Nat :=
  let b1 := fupd b src (b src - amount)
  fupd b1 dst (b1 dst + amount)

/-- Standard fungible-token transfer: requires a sufficient source
balance, then moves the amount from source to recipient. -/
def erc20Transfer (t : TokenState) (src dst : Address) (amount : Nat) :
    Except HaloError TokenState :=
  if t.balanceOf src < amount then .error .TokenInsufficientBalance
  else .ok { t with balanceOf := xferBal t.balanceOf src dst amount }

/-- Standard fungible-token transferFrom: spends the spender allowance
(the infinite allowance is never decremented) and then transfers. -/
def erc20TransferFrom (t : TokenState) (spender src dst : Address)
    (amount : Nat) : Except HaloError TokenState :=
  if t.allowance src spender = MAX_UINT256 then erc20Transfer t src dst amount
  else if t.allowance src spender < amount then
    .error .TokenInsufficientAllowance
  else
    erc20Transfer
      { t with allowance := fun o s =>
          if o = src ∧ s = spender then t.allowance src spender - amount
          else t.allowance o s }
      src dst amount

/-- Modelled from the spec: registerHaloAddress of the missing
HaloPayment.sol, called by `caller`. Rejects the zero device address and a
device bound to a different payer; on success sets both directions of the
registration relation together and emits one registration event. -/
def registerHaloAddress (st : SysState) (caller halo : Address) :
    Except HaloError (SysState × List HaloEvent) :=
  if halo = 0 then .error .ZeroAddress
  else if st.pay.haloToPayer halo ≠ 0 ∧ st.pay.haloToPayer halo ≠ caller then
    .error .HaloAddressAlreadyRegistered
  else
    .ok ({ st with pay :=
            { st.pay with
              authorizedHaloAddresses := fupd st.pay.authorizedHaloAddresses caller halo
              haloToPayer := fupd st.pay.haloToPayer halo caller } },
         [HaloEvent.HaloAddressRegistered caller halo])

/-- Modelled from the spec: revokeHaloAddress of the missing
HaloPayment.sol, called by `caller`. Fails when the caller has no bound
device; on success clears both directions of the registration relation
together and emits one revocation event. -/
def revokeHaloAddress (st : SysState) (caller : Address) :
    Except HaloError (SysState × List HaloEvent) :=
  if st.pay.authorizedHaloAddresses caller = 0 then
    .error .HaloAddressNotAuthorized
  else
    .ok ({ st with pay :=
            { st.pay with
              authorizedHaloAddresses := fupd st.pay.authorizedHaloAddresses caller 0
              haloToPayer :=
                fupd st.pay.haloToPayer (st.pay.authorizedHaloAddresses caller) 0 } },
         [HaloEvent.HaloAddressRevoked caller (st.pay.authorizedHaloAddresses caller)])

/-- Modelled from the spec: executePayment of the missing HaloPayment.sol.
The caller is the submitting account; the function never inspects it. The
checks run in the documented fixed order: zero addresses, zero amount,
registration lookup, signature recovery against the registered device,
nonce replay, allowance; only then the nonce is consumed, the transfer
performed and one payment event emitted, atomically. -/
def executePayment (cfg : Config) (st : SysState) (caller : Address)
    (payer merchant : Address) (amount nonce : Nat) (sig : Signature) :
    Except HaloError (SysState × List HaloEvent) :=
  if payer = 0 ∨ merchant = 0 then .error .ZeroAddress
  else if amount = 0 then .error .InvalidAmount
  else if st.pay.authorizedHaloAddresses payer = 0 then
    .error .HaloAddressNotAuthorized
  else if recoverSigner (getEthSignedMessageHash cfg payer merchant amount nonce) sig
      ≠ st.pay.authorizedHaloAddresses payer then .error .InvalidSignature
  else if st.pay.usedNonces payer nonce then .error .NonceAlreadyUsed
  else if st.token.allowance payer cfg.thisAddr < amount then
    .error .InsufficientAllowance
  else
    match erc20TransferFrom st.token cfg.thisAddr payer merchant amount with
    | .error e => .error e
    | .ok tok2 =>
      .ok ({ pay :=
              { st.pay with usedNonces := fun p n =>
                  if p = payer ∧ n = nonce then true else st.pay.usedNonces p n }
             token := tok2 },
           [HaloEvent.PaymentExecuted payer merchant amount nonce
              (st.pay.authorizedHaloAddresses payer)])

/-- Modelled from the spec: executePaymentFromHalo of the missing
HaloPayment.sol — resolves the payer from the device address, fails when
the device has no current binding, and otherwise behaves exactly as
executePayment on the resolved payer. -/
def executePaymentFromHalo (cfg : Config) (st : SysState) (caller : Address)
    (halo merchant : Address) (amount nonce : Nat) (sig : Signature) :
    Except HaloError (SysState × List HaloEvent) :=
  if st.pay.haloToPayer halo = 0 then .error .HaloAddressNotAuthorized
  else
    executePayment cfg st caller (st.pay.haloToPayer halo) merchant amount
      nonce sig

/-- View function: the authorized device of a payer (0 when none). -/
def getAuthorizedHaloAddress (st : SysState) (user : Address) : Address :=
  st.pay.authorizedHaloAddresses user

/-- View function: the payer bound to a device (0 when none). -/
def getPayerFromHaloAddress (st : SysState) (halo : Address) : Address :=
  st.pay.haloToPayer halo

/-- View function: whether a (payer, nonce) pair is consumed. -/
def isNonceUsed (st : SysState) (payer : Address) (nonce : Nat) : Bool :=
  st.pay.usedNonces payer nonce

/-! ## Explicit result states

Specification-side constructions of the state a successful call produces,
proven below to coincide with what the operations return. -/

/-- The contract storage with one more (payer, nonce) pair consumed. -/
def consumeNonce (p : HaloPaymentState) (payer : Address) (nonce : Nat) :
    HaloPaymentState :=
  { p with usedNonces := fun q m =>
      if q = payer ∧ m = nonce then true else p.usedNonces q m }

/-- The token state after spending an allowance (the infinite allowance is
left untouched). -/
def spendAllowance (t : TokenState) (sp src : Address) (a : Nat) : TokenState :=
  if t.allowance src sp = MAX_UINT256 then t
  else
    { t with allowance := fun o s =>
        if o = src ∧ s = sp then t.allowance src sp - a else t.allowance o s }

/-- The token state a successful transferFrom produces. -/
def transferFromResult (t : TokenState) (sp src dst : Address) (a : Nat) :
    TokenState :=
  { balanceOf := xferBal t.balanceOf src dst a
    allowance := (spendAllowance t sp src a).allowance }

/-- The full state a successful payment call produces: nonce consumed and
funds moved, atomically. -/
def paymentResult (cfg : Config) (st : SysState) (payer merchant : Address)
    (amount nonce : Nat) : SysState :=
  { pay := consumeNonce st.pay payer nonce
    token := transferFromResult st.token cfg.thisAddr payer merchant amount }

/-! ## Concrete fixtures

A deployment on the Sepolia chain id, contract address 7, payer 1,
merchant 2, device address 5, a fresh unrelated submitter 9. -/

/-- A concrete deployment context. -/
def cfgW : Config := { chainId := 11155111, thisAddr := 7 }

/-- A token state: payer 1 holds 1000 units and allows the contract 1000. -/
def tok0 : TokenState :=
  { balanceOf := fun x => if x = 1 then 1000 else 0
    allowance := fun o s => if o = 1 ∧ s = 7 then 1000 else 0 }

/-- Empty contract storage: nothing registered, no nonce consumed. -/
def pay0 : HaloPaymentState :=
  { authorizedHaloAddresses := fun _ => 0
    haloToPayer := fun _ => 0
    usedNonces := fun _ _ => false }

/-- The initial system state. -/
def st0 : SysState := { pay := pay0, token := tok0 }

/-- Contract storage after payer 1 registered device 5. -/
def payReg : HaloPaymentState :=
  { authorizedHaloAddresses := fun x => if x = 1 then 5 else 0
    haloToPayer := fun x => if x = 5 then 1 else 0
    usedNonces := fun _ _ => false }

/-- System state: payer 1 registered device 5, funded as in tok0. -/
def stReg : SysState := { pay := payReg, token := tok0 }

/-- A device-5 signature over the payment (payer 1, merchant 2, amount 10,
nonce 1) at the concrete deployment. -/
def sigW : Signature :=
  { signer := 5, signedHash := getEthSignedMessageHash cfgW 1 2 10 1 }

/-- A token state with an unlimited allowance from payer 1 to the contract
but a zero balance everywhere. -/
def tokPoor : TokenState :=
  { balanceOf := fun _ => 0
    allowance := fun o s => if o = 1 ∧ s = 7 then MAX_UINT256 else 0 }

/-- System state: payer 1 registered device 5, unlimited allowance, empty
balance. -/
def stPoor : SysState := { pay := payReg, token := tokPoor }

/-- A device-5 signature over the payment (payer 1, merchant 1, amount 10,
nonce 1) — the merchant is the payer itself. -/
def sigSelf : Signature :=
  { signer := 5, signedHash := getEthSignedMessageHash cfgW 1 1 10 1 }

/-- The state a successful registration of device 5 by payer 1 from the
initial state produces. -/
def stRegResult : SysState :=
  { st0 with pay :=
      { st0.pay with
        authorizedHaloAddresses := fupd st0.pay.authorizedHaloAddresses 1 5
        haloToPayer := fupd st0.pay.haloToPayer 5 1 } }

/-- A token state with payer 1 funded but a zero allowance everywhere. -/
def tokLow : TokenState :=
  { balanceOf := fun x => if x = 1 then 1000 else 0
    allowance := fun _ _ => 0 }

/-- System state: payer 1 registered device 5, funded, zero allowance. -/
def stLow : SysState := { pay := payReg, token := tokLow }

/-- Contract storage after payer 1 registered device 5 and consumed
nonce 1. -/
def payUsed : HaloPaymentState :=
  { payReg with usedNonces := fun p n => if p = 1 ∧ n = 1 then true else false }

/-- System state: payer 1 registered device 5 with nonce 1 consumed,
funded as in tok0. -/
def stUsed : SysState := { pay := payUsed, token := tok0 }

/-! ## Helper lemmas on the token collaborator -/

/-- The source balance after a transfer to a distinct recipient. -/
theorem xferBal_src {b : Address → Nat} {src dst : Address} {a : Nat}
    (h : src ≠ dst) : xferBal b src dst a src = b src - a := by
  simp [xferBal, fupd, h]

/-- The recipient balance after a transfer from a distinct source. -/
theorem xferBal_dst {b : Address → Nat} {src dst : Address} {a : Nat}
    (h : src ≠ dst) : xferBal b src dst a dst = b dst + a := by
  simp [xferBal, fupd, Ne.symm h]

/-- Accounts other than source and recipient are untouched. -/
theorem xferBal_other {b : Address → Nat} {src dst x : Address} {a : Nat}
    (hs : x ≠ src) (hd : x ≠ dst) : xferBal b src dst a x = b x := by
  simp [xferBal, fupd, hs, hd]

/-- A transferFrom with sufficient allowance and balance succeeds and
produces exactly the explicit result state. -/
theorem erc20TransferFrom_ok_of {t : TokenState} {sp src dst : Address}
    {a : Nat} (hal : a ≤ t.allowance src sp) (hb : a ≤ t.balanceOf src) :
    erc20TransferFrom t sp src dst a = .ok (transferFromResult t sp src dst a) := by
  unfold erc20TransferFrom erc20Transfer transferFromResult spendAllowance
  by_cases hmax : t.allowance src sp = MAX_UINT256
  · rw [if_pos hmax, if_neg (Nat.not_lt.mpr hb), if_pos hmax]
  · rw [if_neg hmax, if_neg (Nat.not_lt.mpr hal), if_neg hmax,
      if_neg (Nat.not_lt.mpr hb)]

/-- Inversion: any successful transferFrom moved exactly the amount, and
required a sufficient source balance. -/
theorem erc20TransferFrom_ok_inv {t t' : TokenState} {sp src dst : Address}
    {a : Nat} (h : erc20TransferFrom t sp src dst a = .ok t') :
    t'.balanceOf = xferBal t.balanceOf src dst a ∧ a ≤ t.balanceOf src := by
  unfold erc20TransferFrom erc20Transfer at h
  split at h
  · split at h
    · exact absurd h (by simp)
    · rename_i hblt
      refine ⟨?_, Nat.not_lt.mp hblt⟩
      injection h with h
      rw [← h]
  · split at h
    · exact absurd h (by simp)
    · split at h
      · exact absurd h (by simp)
      · rename_i hblt
        refine ⟨?_, Nat.not_lt.mp hblt⟩
        injection h with h
        rw [← h]

/-! ## Helper lemmas on the contract operations -/

/-- A payment call with every check satisfied succeeds with exactly the
documented effects. -/
theorem executePayment_ok_of {cfg : Config} {st : SysState}
    {caller payer merchant : Address} {amount nonce : Nat} {sig : Signature}
    (hP : payer ≠ 0) (hM : merchant ≠ 0) (ha : amount ≠ 0)
    (hreg : st.pay.authorizedHaloAddresses payer ≠ 0)
    (hsig : recoverSigner (getEthSignedMessageHash cfg payer merchant amount nonce) sig
      = st.pay.authorizedHaloAddresses payer)
    (hn : st.pay.usedNonces payer nonce = false)
    (hal : amount ≤ st.token.allowance payer cfg.thisAddr)
    (hb : amount ≤ st.token.balanceOf payer) :
    executePayment cfg st caller payer merchant amount nonce sig =
      .ok (paymentResult cfg st payer merchant amount nonce,
        [HaloEvent.PaymentExecuted payer merchant amount nonce
          (st.pay.authorizedHaloAddresses payer)]) := by
  unfold executePayment
  rw [if_neg (by simp [hP, hM]), if_neg ha, if_neg hreg,
    if_neg (by simp [hsig]), if_neg (by simp [hn]),
    if_neg (Nat.not_lt.mpr hal), erc20TransferFrom_ok_of hal hb]
  rfl

/-- Inversion of a successful payment call: every check held on entry and
the resulting state and events are exactly the documented ones. -/
theorem executePayment_ok_inv {cfg : Config} {st st' : SysState}
    {caller payer merchant : Address} {amount nonce : Nat} {sig : Signature}
    {ev : List HaloEvent}
    (h : executePayment cfg st caller payer merchant amount nonce sig
      = .ok (st', ev)) :
    payer ≠ 0 ∧ merchant ≠ 0 ∧ amount ≠ 0
    ∧ st.pay.authorizedHaloAddresses payer ≠ 0
    ∧ recoverSigner (getEthSignedMessageHash cfg payer merchant amount nonce) sig
        = st.pay.authorizedHaloAddresses payer
    ∧ st.pay.usedNonces payer nonce = false
    ∧ amount ≤ st.token.allowance payer cfg.thisAddr
    ∧ amount ≤ st.token.balanceOf payer
    ∧ st'.pay.authorizedHaloAddresses = st.pay.authorizedHaloAddresses
    ∧ st'.pay.haloToPayer = st.pay.haloToPayer
    ∧ st'.pay.usedNonces = (fun p n =>
        if p = payer ∧ n = nonce then true else st.pay.usedNonces p n)
    ∧ st'.token.balanceOf = xferBal st.token.balanceOf payer merchant amount
    ∧ ev = [HaloEvent.PaymentExecuted payer merchant amount nonce
        (st.pay.authorizedHaloAddresses payer)] := by
  unfold executePayment at h
  split at h
  · exact absurd h (by simp)
  rename_i h0
  split at h
  · exact absurd h (by simp)
  rename_i h1
  split at h
  · exact absurd h (by simp)
  rename_i h2
  split at h
  · exact absurd h (by simp)
  rename_i h3
  split at h
  · exact absurd h (by simp)
  rename_i h4
  split at h
  · exact absurd h (by simp)
  rename_i h5
  split at h
  · exact absurd h (by simp)
  rename_i tok2 htok
  obtain ⟨hbal, hble⟩ := erc20TransferFrom_ok_inv htok
  simp only [Except.ok.injEq, Prod.mk.injEq] at h
  obtain ⟨rfl, rfl⟩ := h.symm
  push_neg at h0
  refine ⟨h0.1, h0.2, h1, h2, not_not.mp h3, ?_, Nat.not_lt.mp h5, hble,
    rfl, rfl, rfl, hbal, rfl⟩
  simpa using h4

/-- Inversion of a successful registration: the device was nonzero, not
bound to a different payer, both directions of the relation were set
together, nothing else changed, and one registration event was emitted. -/
theorem registerHaloAddress_ok_inv {st st' : SysState} {caller halo : Address}
    {ev : List HaloEvent}
    (h : registerHaloAddress st caller halo = .ok (st', ev)) :
    halo ≠ 0
    ∧ (st.pay.haloToPayer halo ≠ 0 → st.pay.haloToPayer halo = caller)
    ∧ st'.pay.authorizedHaloAddresses = fupd st.pay.authorizedHaloAddresses caller halo
    ∧ st'.pay.haloToPayer = fupd st.pay.haloToPayer halo caller
    ∧ st'.pay.usedNonces = st.pay.usedNonces
    ∧ st'.token = st.token
    ∧ ev = [HaloEvent.HaloAddressRegistered caller halo] := by
  unfold registerHaloAddress at h
  split at h
  · exact absurd h (by simp)
  rename_i h0
  split at h
  · exact absurd h (by simp)
  rename_i h1
  push_neg at h1
  simp only [Except.ok.injEq, Prod.mk.injEq] at h
  obtain ⟨rfl, rfl⟩ := h.symm
  exact ⟨h0, h1, rfl, rfl, rfl, rfl, rfl⟩

/-- Inversion of a successful revocation: the caller had a bound device,
both directions of the relation were cleared together, nothing else
changed, and one revocation event was emitted. -/
theorem revokeHaloAddress_ok_inv {st st' : SysState} {caller : Address}
    {ev : List HaloEvent}
    (h : revokeHaloAddress st caller = .ok (st', ev)) :
    st.pay.authorizedHaloAddresses caller ≠ 0
    ∧ st'.pay.authorizedHaloAddresses = fupd st.pay.authorizedHaloAddresses caller 0
    ∧ st'.pay.haloToPayer
        = fupd st.pay.haloToPayer (st.pay.authorizedHaloAddresses caller) 0
    ∧ st'.pay.usedNonces = st.pay.usedNonces
    ∧ st'.token = st.token
    ∧ ev = [HaloEvent.HaloAddressRevoked caller
        (st.pay.authorizedHaloAddresses caller)] := by
  unfold revokeHaloAddress at h
  split at h
  · exact absurd h (by simp)
  rename_i h0
  simp only [Except.ok.injEq, Prod.mk.injEq] at h
  obtain ⟨rfl, rfl⟩ := h.symm
  exact ⟨h0, rfl, rfl, rfl, rfl, rfl⟩

/-- A payment call whose payer or merchant is the zero address fails with
the ZeroAddress error. -/
theorem executePayment_err_zero {cfg : Config} {st : SysState}
    {caller payer merchant : Address} {amount nonce : Nat} {sig : Signature}
    (h : payer = 0 ∨ merchant = 0) :
    executePayment cfg st caller payer merchant amount nonce sig
      = .error .ZeroAddress := by
  unfold executePayment
  rw [if_pos h]

/-- A zero-amount payment call past the address check fails with the
InvalidAmount error. -/
theorem executePayment_err_amount {cfg : Config} {st : SysState}
    {caller payer merchant : Address} {amount nonce : Nat} {sig : Signature}
    (hP : payer ≠ 0) (hM : merchant ≠ 0) (ha : amount = 0) :
    executePayment cfg st caller payer merchant amount nonce sig
      = .error .InvalidAmount := by
  unfold executePayment
  rw [if_neg (by simp [hP, hM]), if_pos ha]

/-- A payment call for an unregistered payer past the first two checks
fails with the HaloAddressNotAuthorized error. -/
theorem executePayment_err_notAuth {cfg : Config} {st : SysState}
    {caller payer merchant : Address} {amount nonce : Nat} {sig : Signature}
    (hP : payer ≠ 0) (hM : merchant ≠ 0) (ha : amount ≠ 0)
    (hreg : st.pay.authorizedHaloAddresses payer = 0) :
    executePayment cfg st caller payer merchant amount nonce sig
      = .error .HaloAddressNotAuthorized := by
  unfold executePayment
  rw [if_neg (by simp [hP, hM]), if_neg ha, if_pos hreg]

/-- A payment call whose recovered signer differs from the registered
device fails with the InvalidSignature error. -/
theorem executePayment_err_badsig {cfg : Config} {st : SysState}
    {caller payer merchant : Address} {amount nonce : Nat} {sig : Signature}
    (hP : payer ≠ 0) (hM : merchant ≠ 0) (ha : amount ≠ 0)
    (hreg : st.pay.authorizedHaloAddresses payer ≠ 0)
    (hsig : recoverSigner (getEthSignedMessageHash cfg payer merchant amount nonce) sig
      ≠ st.pay.authorizedHaloAddresses payer) :
    executePayment cfg st caller payer merchant amount nonce sig
      = .error .InvalidSignature := by
  unfold executePayment
  rw [if_neg (by simp [hP, hM]), if_neg ha, if_neg hreg, if_pos hsig]

/-- A payment call replaying a consumed nonce past the signature check
fails with the NonceAlreadyUsed error. -/
theorem executePayment_err_nonce {cfg : Config} {st : SysState}
    {caller payer merchant : Address} {amount nonce : Nat} {sig : Signature}
    (hP : payer ≠ 0) (hM : merchant ≠ 0) (ha : amount ≠ 0)
    (hreg : st.pay.authorizedHaloAddresses payer ≠ 0)
    (hsig : recoverSigner (getEthSignedMessageHash cfg payer merchant amount nonce) sig
      = st.pay.authorizedHaloAddresses payer)
    (hn : st.pay.usedNonces payer nonce = true) :
    executePayment cfg st caller payer merchant amount nonce sig
      = .error .NonceAlreadyUsed := by
  unfold executePayment
  rw [if_neg (by simp [hP, hM]), if_neg ha, if_neg hreg,
    if_neg (by simp [hsig]), if_pos hn]

/-- A payment call with an insufficient allowance past the nonce check
fails with the InsufficientAllowance error. -/
theorem executePayment_err_allow {cfg : Config} {st : SysState}
    {caller payer merchant : Address} {amount nonce : Nat} {sig : Signature}
    (hP : payer ≠ 0) (hM : merchant ≠ 0) (ha : amount ≠ 0)
    (hreg : st.pay.authorizedHaloAddresses payer ≠ 0)
    (hsig : recoverSigner (getEthSignedMessageHash cfg payer merchant amount nonce) sig
      = st.pay.authorizedHaloAddresses payer)
    (hn : st.pay.usedNonces payer nonce = false)
    (hal : st.token.allowance payer cfg.thisAddr < amount) :
    executePayment cfg st caller payer merchant amount nonce sig
      = .error .InsufficientAllowance := by
  unfold executePayment
  rw [if_neg (by simp [hP, hM]), if_neg ha, if_neg hreg,
    if_neg (by simp [hsig]), if_neg (by simp [hn]), if_pos hal]

/-! ## The claims -/

/-- C4: getPaymentMessageHash is a pure, deterministic function equal to
the hash of the packed encoding of the constant domain tag, the payer, the
merchant, the amount, the nonce, the chain identifier and the contract
address (so it separates any two distinct parameter tuples, deployments or
chains); the signable variant getEthSignedMessageHash is the standard
signed-message wrapping of that raw digest and is never equal to any raw
digest. -/
theorem C4_message_hash_builder :
    ∀ (cfg cfg' : Config) (p m p' m' : Address) (a n a' n' : Nat),
      getPaymentMessageHash cfg p m a n
          = Hash.keccakPacked haloTag p m a n cfg.chainId cfg.thisAddr
      ∧ getEthSignedMessageHash cfg p m a n
          = Hash.ethSigned (getPaymentMessageHash cfg p m a n)
      ∧ getEthSignedMessageHash cfg p m a n ≠ getPaymentMessageHash cfg' p' m' a' n'
      ∧ (getPaymentMessageHash cfg p m a n = getPaymentMessageHash cfg' p' m' a' n'
          ↔ p = p' ∧ m = m' ∧ a = a' ∧ n = n'
              ∧ cfg.chainId = cfg'.chainId ∧ cfg.thisAddr = cfg'.thisAddr) := by
  intro cfg cfg' p m p' m' a n a' n'
  refine ⟨rfl, rfl, ?_, ?_⟩
  · simp [getEthSignedMessageHash, getPaymentMessageHash]
  · simp [getPaymentMessageHash]

/-- C4 witness: at concrete parameters the signable digest differs from
the raw digest. -/
theorem C4_message_hash_builder_witness :
    getEthSignedMessageHash cfgW 1 2 10 1 ≠ getPaymentMessageHash cfgW 1 2 10 1 :=
  (C4_message_hash_builder cfgW cfgW 1 2 1 2 10 1 10 1).2.2.1

/-- C5: a successful registerHaloAddress sets both directions of the
registration relation together — afterwards the payer resolves to the
device and the device resolves to the payer — and a successful
revokeHaloAddress clears both directions together, so both lookups return
the zero address afterwards. -/
theorem C5_registration_bidirectional :
    ∀ (st st' : SysState) (caller halo : Address) (ev : List HaloEvent),
      (registerHaloAddress st caller halo = .ok (st', ev) →
        getAuthorizedHaloAddress st' caller = halo
        ∧ getPayerFromHaloAddress st' halo = caller)
      ∧ (revokeHaloAddress st caller = .ok (st', ev) →
        getAuthorizedHaloAddress st' caller = 0
        ∧ getPayerFromHaloAddress st' (getAuthorizedHaloAddress st caller) = 0) := by
  intro st st' caller halo ev
  constructor
  · intro h
    obtain ⟨-, -, hauth, hinv, -, -, -⟩ := registerHaloAddress_ok_inv h
    constructor
    · simp [getAuthorizedHaloAddress, hauth, fupd]
    · simp [getPayerFromHaloAddress, hinv, fupd]
  · intro h
    obtain ⟨-, hauth, hinv, -, -, -⟩ := revokeHaloAddress_ok_inv h
    constructor
    · simp [getAuthorizedHaloAddress, hauth, fupd]
    · simp [getPayerFromHaloAddress, getAuthorizedHaloAddress, hinv, fupd]

/-- C5 witness: registering device 5 for payer 1 from the initial state
makes both lookups agree. -/
theorem C5_registration_bidirectional_witness :
    getAuthorizedHaloAddress stRegResult 1 = 5
    ∧ getPayerFromHaloAddress stRegResult 5 = 1 :=
  (C5_registration_bidirectional st0 stRegResult 1 5
    [HaloEvent.HaloAddressRegistered 1 5]).1 rfl

/-- C6: registering a device currently bound to a different payer fails
with the HaloAddressAlreadyRegistered error; since a failing call is an
atomic revert (it returns an error and no successor state), both bindings
are necessarily left unchanged. -/
theorem C6_cross_user_collision_rejected :
    ∀ (st : SysState) (P1 P2 D : Address),
      getPayerFromHaloAddress st D = P1 → P1 ≠ 0 → P2 ≠ P1 → D ≠ 0 →
      registerHaloAddress st P2 D = .error .HaloAddressAlreadyRegistered := by
  intro st P1 P2 D hbound hP1 hne hD
  unfold registerHaloAddress
  unfold getPayerFromHaloAddress at hbound
  rw [if_neg hD, if_pos]
  exact ⟨by rw [hbound]; exact hP1, by rw [hbound]; exact fun h => hne h.symm⟩

/-- C6 witness: with device 5 bound to payer 1, payer 4 registering
device 5 fails with HaloAddressAlreadyRegistered. -/
theorem C6_cross_user_collision_rejected_witness :
    registerHaloAddress stReg 4 5 = .error .HaloAddressAlreadyRegistered :=
  C6_cross_user_collision_rejected stReg 1 4 5 rfl (by decide) (by decide)
    (by decide)

/-- C9: executePaymentFromHalo on a device with no current binding fails
with the HaloAddressNotAuthorized error for every merchant, amount, nonce
and signature (a failing call is an atomic revert, so no state changes);
and a successful revocation clears the device binding, so the previously
bound device has no current binding afterwards. -/
theorem C9_unbound_device_rejected :
    (∀ (cfg : Config) (st : SysState) (caller D merchant : Address)
        (amount nonce : Nat) (sig : Signature),
      getPayerFromHaloAddress st D = 0 →
      executePaymentFromHalo cfg st caller D merchant amount nonce sig
        = .error .HaloAddressNotAuthorized)
    ∧ (∀ (st st' : SysState) (P : Address) (ev : List HaloEvent),
      revokeHaloAddress st P = .ok (st', ev) →
      getPayerFromHaloAddress st' (getAuthorizedHaloAddress st P) = 0) := by
  constructor
  · intro cfg st caller D merchant amount nonce sig hunbound
    unfold executePaymentFromHalo
    unfold getPayerFromHaloAddress at hunbound
    rw [if_pos hunbound]
  · intro st st' P ev h
    obtain ⟨-, -, hinv, -, -, -⟩ := revokeHaloAddress_ok_inv h
    simp [getPayerFromHaloAddress, getAuthorizedHaloAddress, hinv, fupd]

/-- C9 witness: in the initial state device 5 is unbound, and a payment
from it fails with HaloAddressNotAuthorized. -/
theorem C9_unbound_device_rejected_witness :
    executePaymentFromHalo cfgW st0 9 5 2 10 1 sigW
      = .error .HaloAddressNotAuthorized :=
  C9_unbound_device_rejected.1 cfgW st0 9 5 2 10 1 sigW rfl

/-- C8: executePayment performs its checks in the documented fixed order
and returns the error of the first failing check — ZeroAddress, then
InvalidAmount, then HaloAddressNotAuthorized, then InvalidSignature, then
NonceAlreadyUsed, then InsufficientAllowance — and only when every check
passes does it consume the nonce, transfer and emit, atomically. -/
theorem C8_validation_order :
    ∀ (cfg : Config) (st : SysState) (caller payer merchant : Address)
      (amount nonce : Nat) (sig : Signature),
      (payer = 0 ∨ merchant = 0 →
        executePayment cfg st caller payer merchant amount nonce sig
          = .error .ZeroAddress)
      ∧ (payer ≠ 0 → merchant ≠ 0 → amount = 0 →
        executePayment cfg st caller payer merchant amount nonce sig
          = .error .InvalidAmount)
      ∧ (payer ≠ 0 → merchant ≠ 0 → amount ≠ 0 →
        getAuthorizedHaloAddress st payer = 0 →
        executePayment cfg st caller payer merchant amount nonce sig
          = .error .HaloAddressNotAuthorized)
      ∧ (payer ≠ 0 → merchant ≠ 0 → amount ≠ 0 →
        getAuthorizedHaloAddress st payer ≠ 0 →
        recoverSigner (getEthSignedMessageHash cfg payer merchant amount nonce) sig
          ≠ getAuthorizedHaloAddress st payer →
        executePayment cfg st caller payer merchant amount nonce sig
          = .error .InvalidSignature)
      ∧ (payer ≠ 0 → merchant ≠ 0 → amount ≠ 0 →
        getAuthorizedHaloAddress st payer ≠ 0 →
        recoverSigner (getEthSignedMessageHash cfg payer merchant amount nonce) sig
          = getAuthorizedHaloAddress st payer →
        isNonceUsed st payer nonce = true →
        executePayment cfg st caller payer merchant amount nonce sig
          = .error .NonceAlreadyUsed)
      ∧ (payer ≠ 0 → merchant ≠ 0 → amount ≠ 0 →
        getAuthorizedHaloAddress st payer ≠ 0 →
        recoverSigner (getEthSignedMessageHash cfg payer merchant amount nonce) sig
          = getAuthorizedHaloAddress st payer →
        isNonceUsed st payer nonce = false →
        st.token.allowance payer cfg.thisAddr < amount →
        executePayment cfg st caller payer merchant amount nonce sig
          = .error .InsufficientAllowance)
      ∧ (payer ≠ 0 → merchant ≠ 0 → amount ≠ 0 →
        getAuthorizedHaloAddress st payer ≠ 0 →
        recoverSigner (getEthSignedMessageHash cfg payer merchant amount nonce) sig
          = getAuthorizedHaloAddress st payer →
        isNonceUsed st payer nonce = false →
        amount ≤ st.token.allowance payer cfg.thisAddr →
        amount ≤ st.token.balanceOf payer →
        executePayment cfg st caller payer merchant amount nonce sig
          = .ok (paymentResult cfg st payer merchant amount nonce,
              [HaloEvent.PaymentExecuted payer merchant amount nonce
                (getAuthorizedHaloAddress st payer)])) := by
  intro cfg st caller payer merchant amount nonce sig
  refine ⟨fun h => executePayment_err_zero h,
    fun hP hM ha => executePayment_err_amount hP hM ha,
    fun hP hM ha hreg => executePayment_err_notAuth hP hM ha hreg,
    fun hP hM ha hreg hsig => executePayment_err_badsig hP hM ha hreg hsig,
    fun hP hM ha hreg hsig hn => executePayment_err_nonce hP hM ha hreg hsig hn,
    fun hP hM ha hreg hsig hn hal => executePayment_err_allow hP hM ha hreg hsig hn hal,
    fun hP hM ha hreg hsig hn hal hb => executePayment_ok_of hP hM ha hreg hsig hn hal hb⟩

/-- C8 witness: with every check satisfied at concrete inputs, the call
succeeds with the explicit result state and a single payment event. -/
theorem C8_validation_order_witness :
    executePayment cfgW stReg 9 1 2 10 1 sigW
      = .ok (paymentResult cfgW stReg 1 2 10 1,
          [HaloEvent.PaymentExecuted 1 2 10 1 5]) :=
  (C8_validation_order cfgW stReg 9 1 2 10 1 sigW).2.2.2.2.2.2
    (by decide) (by decide) (by decide) (by decide) rfl rfl (by decide)
    (by decide)

/-- C3: a device signature over the digest of (payer A, merchant M,
amount X, nonce N) is rejected with InvalidSignature when submitted with
any single parameter changed — a different nonzero merchant, a different
nonzero amount, a different nonce, or a different registered payer — since
the recovered signer no longer equals the registered device of the payer
argument. -/
theorem C3_signature_binding :
    ∀ (cfg : Config) (st : SysState) (caller A D M : Address) (X N : Nat),
      getAuthorizedHaloAddress st A = D → D ≠ 0 → A ≠ 0 → M ≠ 0 → X ≠ 0 →
      (∀ M' : Address, M' ≠ M → M' ≠ 0 →
        executePayment cfg st caller A M' X N
          { signer := D, signedHash := getEthSignedMessageHash cfg A M X N }
          = .error .InvalidSignature)
      ∧ (∀ X' : Nat, X' ≠ X → X' ≠ 0 →
        executePayment cfg st caller A M X' N
          { signer := D, signedHash := getEthSignedMessageHash cfg A M X N }
          = .error .InvalidSignature)
      ∧ (∀ N' : Nat, N' ≠ N →
        executePayment cfg st caller A M X N'
          { signer := D, signedHash := getEthSignedMessageHash cfg A M X N }
          = .error .InvalidSignature)
      ∧ (∀ P2 : Address, P2 ≠ A → P2 ≠ 0 →
        getAuthorizedHaloAddress st P2 ≠ 0 →
        executePayment cfg st caller P2 M X N
          { signer := D, signedHash := getEthSignedMessageHash cfg A M X N }
          = .error .InvalidSignature) := by
  intro cfg st caller A D M X N hreg hD hA hM hX
  unfold getAuthorizedHaloAddress at hreg
  refine ⟨?_, ?_, ?_, ?_⟩
  · intro M' hne hM'
    apply executePayment_err_badsig hA hM' hX (by rw [hreg]; exact hD)
    rw [hreg]
    simp [recoverSigner, getEthSignedMessageHash, getPaymentMessageHash,
      Ne.symm hne, Ne.symm hD]
  · intro X' hne hX'
    apply executePayment_err_badsig hA hM hX' (by rw [hreg]; exact hD)
    rw [hreg]
    simp [recoverSigner, getEthSignedMessageHash, getPaymentMessageHash,
      Ne.symm hne, Ne.symm hD]
  · intro N' hne
    apply executePayment_err_badsig hA hM hX (by rw [hreg]; exact hD)
    rw [hreg]
    simp [recoverSigner, getEthSignedMessageHash, getPaymentMessageHash,
      Ne.symm hne, Ne.symm hD]
  · intro P2 hne hP2 hreg2
    unfold getAuthorizedHaloAddress at hreg2
    apply executePayment_err_badsig hP2 hM hX hreg2
    simp [recoverSigner, getEthSignedMessageHash, getPaymentMessageHash,
      Ne.symm hne, Ne.symm hreg2]

/-- C3 witness: the device-5 signature over (payer 1, merchant 2,
amount 10, nonce 1) submitted with merchant 3 fails with
InvalidSignature. -/
theorem C3_signature_binding_witness :
    executePayment cfgW stReg 9 1 3 10 1 sigW = .error .InvalidSignature :=
  (C3_signature_binding cfgW stReg 9 1 5 2 10 1 rfl (by decide) (by decide)
    (by decide) (by decide)).1 3 (by decide) (by decide)

/-- C7: a payment call that fails the allowance check returns the
InsufficientAllowance error — an atomic revert, so the nonce stays
unconsumed and no balance changes — and a retry of the same payment with
the same nonce succeeds once the token state grants a sufficient allowance
and balance. -/
theorem C7_atomic_failure_retry :
    ∀ (cfg : Config) (st : SysState) (caller P D M : Address) (amount nonce : Nat),
      getAuthorizedHaloAddress st P = D → D ≠ 0 → P ≠ 0 → M ≠ 0 → amount ≠ 0 →
      isNonceUsed st P nonce = false →
      st.token.allowance P cfg.thisAddr < amount →
      (executePayment cfg st caller P M amount nonce
          { signer := D, signedHash := getEthSignedMessageHash cfg P M amount nonce }
        = .error .InsufficientAllowance)
      ∧ isNonceUsed st P nonce = false
      ∧ (∀ tok' : TokenState,
          amount ≤ tok'.allowance P cfg.thisAddr → amount ≤ tok'.balanceOf P →
          executePayment cfg { pay := st.pay, token := tok' } caller P M amount nonce
              { signer := D, signedHash := getEthSignedMessageHash cfg P M amount nonce }
            = .ok (paymentResult cfg { pay := st.pay, token := tok' } P M amount nonce,
                [HaloEvent.PaymentExecuted P M amount nonce D])) := by
  intro cfg st caller P D M amount nonce hreg hD hP hM ha hn hal
  unfold getAuthorizedHaloAddress at hreg
  unfold isNonceUsed at hn
  have hsig : recoverSigner (getEthSignedMessageHash cfg P M amount nonce)
      { signer := D, signedHash := getEthSignedMessageHash cfg P M amount nonce }
      = st.pay.authorizedHaloAddresses P := by
    rw [hreg]; simp [recoverSigner]
  refine ⟨executePayment_err_allow hP hM ha (by rw [hreg]; exact hD) hsig hn hal,
    hn, ?_⟩
  intro tok' hal' hb'
  have h := @executePayment_ok_of cfg { pay := st.pay, token := tok' } caller
    P M amount nonce _
    hP hM ha (by rw [hreg]; exact hD) hsig hn hal' hb'
  rw [h, hreg]

/-- C7 witness: with a zero allowance the call fails with
InsufficientAllowance, the nonce stays unconsumed, and the retry with the
same nonce under the original 1000-unit allowance succeeds. -/
theorem C7_atomic_failure_retry_witness :
    executePayment cfgW stLow 9 1 2 10 1 sigW = .error .InsufficientAllowance
    ∧ isNonceUsed stLow 1 1 = false
    ∧ executePayment cfgW stReg 9 1 2 10 1 sigW
      = .ok (paymentResult cfgW stReg 1 2 10 1,
          [HaloEvent.PaymentExecuted 1 2 10 1 5]) :=
  ⟨(C7_atomic_failure_retry cfgW stLow 9 1 5 2 10 1 rfl (by decide) (by decide)
      (by decide) (by decide) rfl (by decide)).1,
   (C7_atomic_failure_retry cfgW stLow 9 1 5 2 10 1 rfl (by decide) (by decide)
      (by decide) (by decide) rfl (by decide)).2.1,
   (C7_atomic_failure_retry cfgW stLow 9 1 5 2 10 1 rfl (by decide) (by decide)
      (by decide) (by decide) rfl (by decide)).2.2 tok0 (by decide) (by decide)⟩

/-- C2: a consumed (payer, nonce) pair can never be spent again — no
executePayment or executePaymentFromHalo call on that pair succeeds, and a
call that is otherwise valid fails precisely with NonceAlreadyUsed; the
consumed mark is permanent across every operation; and the same nonce
value under a different payer succeeds when the call is otherwise valid,
so consumed nonces are scoped per payer. -/
theorem C2_nonce_single_use_per_payer :
    ∀ cfg : Config,
      (∀ (st st' : SysState) (caller P M : Address) (a N : Nat)
          (sig : Signature) (ev : List HaloEvent),
        isNonceUsed st P N = true →
        executePayment cfg st caller P M a N sig ≠ .ok (st', ev))
      ∧ (∀ (st st' : SysState) (caller D M : Address) (a N : Nat)
          (sig : Signature) (ev : List HaloEvent),
        isNonceUsed st (getPayerFromHaloAddress st D) N = true →
        executePaymentFromHalo cfg st caller D M a N sig ≠ .ok (st', ev))
      ∧ (∀ (st : SysState) (caller P M : Address) (a N : Nat) (sig : Signature),
        P ≠ 0 → M ≠ 0 → a ≠ 0 →
        getAuthorizedHaloAddress st P ≠ 0 →
        recoverSigner (getEthSignedMessageHash cfg P M a N) sig
          = getAuthorizedHaloAddress st P →
        isNonceUsed st P N = true →
        executePayment cfg st caller P M a N sig = .error .NonceAlreadyUsed)
      ∧ (∀ (st st' : SysState) (caller halo P : Address) (N : Nat)
          (ev : List HaloEvent),
        registerHaloAddress st caller halo = .ok (st', ev) →
        isNonceUsed st P N = true → isNonceUsed st' P N = true)
      ∧ (∀ (st st' : SysState) (caller P : Address) (N : Nat)
          (ev : List HaloEvent),
        revokeHaloAddress st caller = .ok (st', ev) →
        isNonceUsed st P N = true → isNonceUsed st' P N = true)
      ∧ (∀ (st st' : SysState) (caller p m P : Address) (a n N : Nat)
          (sig : Signature) (ev : List HaloEvent),
        executePayment cfg st caller p m a n sig = .ok (st', ev) →
        isNonceUsed st P N = true → isNonceUsed st' P N = true)
      ∧ (∀ (st st' : SysState) (caller d m P : Address) (a n N : Nat)
          (sig : Signature) (ev : List HaloEvent),
        executePaymentFromHalo cfg st caller d m a n sig = .ok (st', ev) →
        isNonceUsed st P N = true → isNonceUsed st' P N = true)
      ∧ (∀ (st : SysState) (caller P P2 D2 M : Address) (a N : Nat),
        isNonceUsed st P N = true → P2 ≠ P →
        getAuthorizedHaloAddress st P2 = D2 → D2 ≠ 0 → P2 ≠ 0 → M ≠ 0 → a ≠ 0 →
        isNonceUsed st P2 N = false →
        a ≤ st.token.allowance P2 cfg.thisAddr → a ≤ st.token.balanceOf P2 →
        executePayment cfg st caller P2 M a N
            { signer := D2, signedHash := getEthSignedMessageHash cfg P2 M a N }
          = .ok (paymentResult cfg st P2 M a N,
              [HaloEvent.PaymentExecuted P2 M a N D2])) := by
  intro cfg
  refine ⟨?_, ?_, ?_, ?_, ?_, ?_, ?_, ?_⟩
  · intro st st' caller P M a N sig ev hused h
    obtain ⟨-, -, -, -, -, hn, -, -, -, -, -, -, -⟩ := executePayment_ok_inv h
    simp [isNonceUsed, hn] at hused
  · intro st st' caller D M a N sig ev hused h
    unfold executePaymentFromHalo at h
    split at h
    · exact absurd h (by simp)
    obtain ⟨-, -, -, -, -, hn, -, -, -, -, -, -, -⟩ := executePayment_ok_inv h
    simp [isNonceUsed, getPayerFromHaloAddress, hn] at hused
  · intro st caller P M a N sig hP hM ha hreg hsig hused
    unfold getAuthorizedHaloAddress at hreg hsig
    unfold isNonceUsed at hused
    exact executePayment_err_nonce hP hM ha hreg hsig hused
  · intro st st' caller halo P N ev h hused
    obtain ⟨-, -, -, -, hns, -, -⟩ := registerHaloAddress_ok_inv h
    simpa [isNonceUsed, hns] using hused
  · intro st st' caller P N ev h hused
    obtain ⟨-, -, -, hns, -, -⟩ := revokeHaloAddress_ok_inv h
    simpa [isNonceUsed, hns] using hused
  · intro st st' caller p m P a n N sig ev h hused
    obtain ⟨-, -, -, -, -, -, -, -, -, -, hns, -, -⟩ := executePayment_ok_inv h
    unfold isNonceUsed at hused ⊢
    simp only [hns]
    split
    · rfl
    · exact hused
  · intro st st' caller d m P a n N sig ev h hused
    unfold executePaymentFromHalo at h
    split at h
    · exact absurd h (by simp)
    obtain ⟨-, -, -, -, -, -, -, -, -, -, hns, -, -⟩ := executePayment_ok_inv h
    unfold isNonceUsed at hused ⊢
    simp only [hns]
    split
    · rfl
    · exact hused
  · intro st caller P P2 D2 M a N _hPused hne hreg hD2 hP2 hM ha hn hal hb
    unfold getAuthorizedHaloAddress at hreg
    unfold isNonceUsed at hn
    have hsig : recoverSigner (getEthSignedMessageHash cfg P2 M a N)
        { signer := D2, signedHash := getEthSignedMessageHash cfg P2 M a N }
        = st.pay.authorizedHaloAddresses P2 := by
      rw [hreg]; simp [recoverSigner]
    have h := @executePayment_ok_of cfg st caller P2 M a N _
      hP2 hM ha (by rw [hreg]; exact hD2) hsig hn hal hb
    rw [h, hreg]

/-- C2 witness: with (payer 1, nonce 1) consumed, an otherwise valid
replay fails with NonceAlreadyUsed, and payer 4 — distinct from payer 1 —
cannot spend nonce 1 either way, while the consumed mark itself is
observable. -/
theorem C2_nonce_single_use_per_payer_witness :
    executePayment cfgW stUsed 9 1 2 10 1 sigW = .error .NonceAlreadyUsed :=
  (C2_nonce_single_use_per_payer cfgW).2.2.1 stUsed 9 1 2 10 1 sigW
    (by decide) (by decide) (by decide) (by decide) rfl rfl

/-- C1 counterexample: every precondition the claim states holds — payer 1
has registered device 5, the allowance granted to the contract is the
infinite allowance (hence at least the amount), the signature is a valid
device signature over the exact parameters, and the nonce is unused — yet
the call does not succeed: the payer balance is below the amount, so the
transfer collaborator rejects it. The claim omits the balance condition
(and, for its exact balance effects, the case merchant = payer). -/
theorem C1_payment_claim_counterexample :
    getAuthorizedHaloAddress stPoor 1 = 5
    ∧ stPoor.token.allowance 1 cfgW.thisAddr ≥ 10
    ∧ recoverSigner (getEthSignedMessageHash cfgW 1 1 10 1) sigSelf = 5
    ∧ isNonceUsed stPoor 1 1 = false
    ∧ executePayment cfgW stPoor 9 1 1 10 1 sigSelf
        = .error .TokenInsufficientBalance :=
  ⟨rfl, by decide, rfl, rfl, rfl⟩

/-- C1 (amended): for a payer with a registered device, a nonzero distinct
merchant, a nonzero amount within both the granted allowance and the payer
balance, a valid device signature over the exact parameters and an unused
nonce, executePayment succeeds and its effects are exactly the explicit
result state — the payer balance decreases by the amount, the merchant
balance increases by it, the nonce becomes used — with exactly one
PaymentExecuted event. -/
theorem C1_payment_success_effects :
    ∀ (cfg : Config) (st : SysState) (caller P D M : Address) (a N : Nat),
      getAuthorizedHaloAddress st P = D → D ≠ 0 → P ≠ 0 → M ≠ 0 → a ≠ 0 →
      isNonceUsed st P N = false →
      a ≤ st.token.allowance P cfg.thisAddr →
      a ≤ st.token.balanceOf P →
      executePayment cfg st caller P M a N
          { signer := D, signedHash := getEthSignedMessageHash cfg P M a N }
        = .ok (paymentResult cfg st P M a N,
            [HaloEvent.PaymentExecuted P M a N D])
      ∧ isNonceUsed (paymentResult cfg st P M a N) P N = true
      ∧ (M ≠ P →
          (paymentResult cfg st P M a N).token.balanceOf P
              = st.token.balanceOf P - a
          ∧ (paymentResult cfg st P M a N).token.balanceOf M
              = st.token.balanceOf M + a) := by
  intro cfg st caller P D M a N hreg hD hP hM ha hn hal hb
  unfold getAuthorizedHaloAddress at hreg
  unfold isNonceUsed at hn
  have hsig : recoverSigner (getEthSignedMessageHash cfg P M a N)
      { signer := D, signedHash := getEthSignedMessageHash cfg P M a N }
      = st.pay.authorizedHaloAddresses P := by
    rw [hreg]; simp [recoverSigner]
  refine ⟨?_, ?_, ?_⟩
  · have h := @executePayment_ok_of cfg st caller P M a N _ hP hM ha
      (by rw [hreg]; exact hD) hsig hn hal hb
    rw [h, hreg]
  · simp [isNonceUsed, paymentResult, consumeNonce]
  · intro hMP
    constructor
    · simp [paymentResult, transferFromResult, xferBal_src (Ne.symm hMP)]
    · simp [paymentResult, transferFromResult, xferBal_dst (Ne.symm hMP)]

/-- C1 witness: from the funded registered state, the concrete payment of
amount 10 at nonce 1 succeeds, marks the nonce used and moves the payer
balance from 1000 to 990 and the merchant balance from 0 to 10, with one
payment event. -/
theorem C1_payment_success_effects_witness :
    executePayment cfgW stReg 9 1 2 10 1 sigW
      = .ok (paymentResult cfgW stReg 1 2 10 1,
          [HaloEvent.PaymentExecuted 1 2 10 1 5])
    ∧ isNonceUsed (paymentResult cfgW stReg 1 2 10 1) 1 1 = true
    ∧ (paymentResult cfgW stReg 1 2 10 1).token.balanceOf 1 = 990
    ∧ (paymentResult cfgW stReg 1 2 10 1).token.balanceOf 2 = 10 :=
  ⟨(C1_payment_success_effects cfgW stReg 9 1 5 2 10 1 rfl (by decide)
      (by decide) (by decide) (by decide) rfl (by decide) (by decide)).1,
   (C1_payment_success_effects cfgW stReg 9 1 5 2 10 1 rfl (by decide)
      (by decide) (by decide) (by decide) rfl (by decide) (by decide)).2.1,
   ((C1_payment_success_effects cfgW stReg 9 1 5 2 10 1 rfl (by decide)
      (by decide) (by decide) (by decide) rfl (by decide) (by decide)).2.2
      (by decide)).1,
   ((C1_payment_success_effects cfgW stReg 9 1 5 2 10 1 rfl (by decide)
      (by decide) (by decide) (by decide) rfl (by decide) (by decide)).2.2
      (by decide)).2⟩

/-- C10: neither payment entry point inspects the submitting caller — two
calls with identical arguments in the same state return identical results
for any two callers — and on success the funds go to the merchant
argument: the merchant balance increases by the amount while the balance
of a caller distinct from payer and merchant is unchanged. -/
theorem C10_caller_independence :
    ∀ (cfg : Config) (st : SysState) (P M : Address) (a n : Nat)
      (sig : Signature),
      (∀ c1 c2 : Address,
        executePayment cfg st c1 P M a n sig
          = executePayment cfg st c2 P M a n sig)
      ∧ (∀ (c1 c2 D : Address),
        executePaymentFromHalo cfg st c1 D M a n sig
          = executePaymentFromHalo cfg st c2 D M a n sig)
      ∧ (∀ (caller : Address) (st' : SysState) (ev : List HaloEvent),
        executePayment cfg st caller P M a n sig = .ok (st', ev) → P ≠ M →
        st'.token.balanceOf M = st.token.balanceOf M + a
        ∧ (caller ≠ P → caller ≠ M →
            st'.token.balanceOf caller = st.token.balanceOf caller)) := by
  intro cfg st P M a n sig
  refine ⟨fun c1 c2 => rfl, fun c1 c2 D => rfl, ?_⟩
  intro caller st' ev h hPM
  obtain ⟨-, -, -, -, -, -, -, -, -, -, -, hbal, -⟩ := executePayment_ok_inv h
  constructor
  · rw [hbal, xferBal_dst hPM]
  · intro hcP hcM
    rw [hbal, xferBal_other hcP hcM]

/-- C10 witness: the concrete payment returns the same result when
submitted by caller 9 and by caller 4, and the successful call pays the
merchant argument while leaving the unrelated caller balance unchanged. -/
theorem C10_caller_independence_witness :
    executePayment cfgW stReg 9 1 2 10 1 sigW
      = executePayment cfgW stReg 4 1 2 10 1 sigW
    ∧ (paymentResult cfgW stReg 1 2 10 1).token.balanceOf 2
        = stReg.token.balanceOf 2 + 10
    ∧ (paymentResult cfgW stReg 1 2 10 1).token.balanceOf 9
        = stReg.token.balanceOf 9 :=
  ⟨(C10_caller_independence cfgW stReg 1 2 10 1 sigW).1 9 4,
   ((C10_caller_independence cfgW stReg 1 2 10 1 sigW).2.2 9
      (paymentResult cfgW stReg 1 2 10 1)
      [HaloEvent.PaymentExecuted 1 2 10 1 5] rfl (by decide)).1,
   (((C10_caller_independence cfgW stReg 1 2 10 1 sigW).2.2 9
      (paymentResult cfgW stReg 1 2 10 1)
      [HaloEvent.PaymentExecuted 1 2 10 1 5] rfl (by decide)).2
      (by decide) (by decide))⟩
